import Mathlib

/-!
Verification of the core MIDI pipeline of the Mamba virtual keyboard
(src/MidiKeyBoard.cpp, src/xkeyboard.c).

The development shallowly embeds, in order:
  * the key-press bit matrix of xkeyboard.c (`set_key_in_matrix`,
    `is_key_in_matrix`, `clear_key_matrix`);
  * the lock-free staging table `MidiMessenger` (`send_midi_cc`, `next`,
    `fill`);
  * the realtime state of `XJack` together with `process_midi_out`, the
    `MidiRecord` consolidator, and the UI transport callbacks
    (`record_callback`, `play_callback`).

Modelling conventions:
  * `jack_nframes_t` frame times are `uint32_t`; `stop - start` is unsigned
    32-bit subtraction, embedded as `u32sub` on `Nat`.
  * The C++ `double deltaTime` only ever holds `(double)(uint32 difference)`,
    an exact nonnegative integer below 2^32, so it is modelled as `Nat`
    (doubles represent all integers below 2^53 exactly, and the only
    operation on it is an order comparison).
  * `jack_last_frame_time` returns the frame time of the start of the
    current process cycle, hence is constant during one callback; each block
    therefore carries one time parameter `tm`.
  * `jack_midi_event_reserve` may fail depending on port capacity; it is
    modelled by an oracle `res : Nat → Nat → Bool` (frame offset, length).
  * The consolidator thread of `MidiRecord` parks on a condition variable
    and, once woken, appends `*rec.st` to `rec.play` and clears it.  Per the
    concurrency assumption of the design (capacity sizing guarantees the
    consolidator finishes before the next hand-off), a `cv.notify_one()`
    is modelled as running that drain atomically (`notifyDrain`).  The ghost
    fields `wakes` and `handoffLog` count the notifies and record the size
    of each drained buffer; they influence nothing.
-/

namespace Mamba

/-! ## Key matrix (xkeyboard.c lines 163-230)

The matrix is `unsigned long key_matrix[4]` (64-bit words on the target).
`set_key_in_matrix` dispatches `key` to a word and a shift count and then
executes `(*use_matrix) |= (1 << key)` resp. `&= (~(1 << key))` where the
shifted `1` is a 32-bit `int`.  On the x86-64/gcc target this has the
following concrete semantics, which the embedding reproduces:
  * the variable shift count is masked modulo 32 (x86 `shl` behaviour for a
    32-bit operand), so `1 << 32` evaluates to `1`;
  * `1 << 31` is `INT_MIN`; converting it to `unsigned long` sign-extends,
    yielding `0xFFFFFFFF80000000`, and `~(1 << 31)` is `INT_MAX =
    0x7FFFFFFF`.  Setting bit 31 of a word therefore also smears bits
    32-63, but no key of the supported range 0-126 ever tests those bits of
    the same word, so the smear is unobservable through the API.
-/

/-- `unsigned long key_matrix[4]` of xkeyboard.h. -/
structure KeyMatrix where
  w0 : Nat
  w1 : Nat
  w2 : Nat
  w3 : Nat
deriving Repr, DecidableEq

/-- Which of the four words the range dispatch of `set_key_in_matrix` /
`is_key_in_matrix` selects for `key` (the `if(key>94) ... else if(key>62)
... else if(key>31)` ladder). -/
def wordIdx (key : Nat) : Nat :=
  if key > 94 then 3 else if key > 62 then 2 else if key > 31 then 1 else 0

/-- The rebased key used as shift count after the dispatch subtracted the
range base (`key -= 94` / `key -= 62` / `key -= 31`). -/
def keyShift (key : Nat) : Nat :=
  if key > 94 then key - 94 else if key > 62 then key - 62
  else if key > 31 then key - 31 else key

/-- Value of `(unsigned long)(1 << s)` for an `int` 1 on x86-64: the shift
count is masked mod 32 and the `int` result is sign-extended to 64 bits
(`1 << 31 = INT_MIN ↦ 0xFFFFFFFF80000000`). -/
def shiftMask (s : Nat) : Nat :=
  if s % 32 = 31 then 0xFFFFFFFF80000000 else 2 ^ (s % 32)

/-- Value of `(unsigned long)(~(1 << s))` under the same semantics
(`~INT_MIN = INT_MAX = 0x7FFFFFFF`; otherwise the 64-bit complement of the
set bit). -/
def clearMask (s : Nat) : Nat :=
  if s % 32 = 31 then 0x7FFFFFFF else 0xFFFFFFFFFFFFFFFF - 2 ^ (s % 32)

def getWord (m : KeyMatrix) (j : Nat) : Nat :=
  if j = 0 then m.w0 else if j = 1 then m.w1 else if j = 2 then m.w2 else m.w3

def setWord (m : KeyMatrix) (j v : Nat) : KeyMatrix :=
  if j = 0 then { m with w0 := v } else if j = 1 then { m with w1 := v }
  else if j = 2 then { m with w2 := v } else { m with w3 := v }

/-- xkeyboard.c lines 163-181. -/
def set_key_in_matrix (m : KeyMatrix) (key : Nat) (b : Bool) : KeyMatrix :=
  let j := wordIdx key
  let s := keyShift key
  if b then setWord m j (getWord m j ||| shiftMask s)
  else setWord m j (getWord m j &&& clearMask s)

/-- xkeyboard.c lines 183-202: `(*use_matrix) & (1<<key)` tested nonzero. -/
def is_key_in_matrix (m : KeyMatrix) (key : Nat) : Bool :=
  decide (getWord m (wordIdx key) &&& shiftMask (keyShift key) ≠ 0)

/-- The inner `for(i=0;i<32;i++) key_matrix[j] &= (~(1 << i));` of
`clear_key_matrix` applied to one word. -/
def clearWord (w : Nat) : Nat :=
  (List.range 32).foldl (fun a i => a &&& clearMask i) w

/-- xkeyboard.c lines 221-230. -/
def clear_key_matrix (m : KeyMatrix) : KeyMatrix :=
  ⟨clearWord m.w0, clearWord m.w1, clearWord m.w2, clearWord m.w3⟩

/-! ## MidiMessenger (MidiKeyBoard.cpp lines 80-122)

One slot of the staging table: the arrays `cc_num`, `pg_num`, `bg_num`,
`me_num` plus the atomic flag `send_cc[i]`.  The slot count
`max_midi_cc_cnt` is declared in MidiKeyBoard.h (not part of src/); the
table length is therefore left as the length of the slot list, and the
concrete scenarios use the capacity 8 given by the spec's scenario. -/
structure Slot where
  cc_num : Nat
  pg_num : Nat
  bg_num : Nat
  me_num : Nat
  send_cc : Bool
deriving Repr, DecidableEq, Inhabited

def freeSlot : Slot := ⟨0, 0, 0, 0, false⟩

structure MidiMessenger where
  channel : Nat
  slots : List Slot
deriving Repr, DecidableEq, Inhabited

namespace MidiMessenger

/-- The slot scan of `send_midi_cc` (lines 107-120): at the first occupied
slot holding the identical tuple return success unchanged; at the first
free slot store the tuple, mark it occupied and return success; past the
end return failure. -/
def sendScan (cc pg bgn num : Nat) : List Slot → Bool × List Slot
  | [] => (false, [])
  | s :: rest =>
    if s.send_cc then
      if s.cc_num = cc ∧ s.pg_num = pg ∧ s.bg_num = bgn ∧ s.me_num = num then
        (true, s :: rest)
      else
        let r := sendScan cc pg bgn num rest
        (r.1, s :: r.2)
    else
      (true, ⟨cc, pg, bgn, num, true⟩ :: rest)

/-- MidiKeyBoard.cpp lines 105-122; `_cc |= channel` is the bitwise or. -/
def send_midi_cc (mm : MidiMessenger) (cc pg bgn num : Nat) :
    Bool × MidiMessenger :=
  let r := sendScan (cc ||| mm.channel) pg bgn num mm.slots
  (r.1, { mm with slots := r.2 })

/-- Scan of the `while (++i < max_midi_cc_cnt)` loop of `next`, walking the
tail of the slot list while tracking the absolute index. -/
def nextAux : List Slot → Nat → Int
  | [], _ => -1
  | s :: rest, idx => if s.send_cc then idx else nextAux rest (idx + 1)

/-- MidiKeyBoard.cpp lines 87-94: first occupied index strictly after `i`,
or -1.  `process_midi_out` first calls it as `next()`; the header's default
argument is -1 (the spec's `nextReady(afterIndex)` iterating all pending
messages from the start). -/
def next (mm : MidiMessenger) (i : Int) : Int :=
  nextAux (mm.slots.drop (i + 1).toNat) (i + 1).toNat

/-- `size(i)` is declared in MidiKeyBoard.h (not in src/).  Modelled from
the spec: the per-slot byte length of the pending message, i.e. the stored
`_num` argument (`me_num[i]`), which is what `fill` and the record branch
consume as the message length. -/
def size (mm : MidiMessenger) (i : Nat) : Nat :=
  (mm.slots.getD i freeSlot).me_num

/-- MidiKeyBoard.cpp lines 96-103: copy the payload into the reserved port
area and release the slot.  Returns the three buffer bytes (the third is
only written by the cpp when `size(i) = 3`; consumers guard on `size`)
and the messenger with `send_cc[i]` cleared. -/
def fill (mm : MidiMessenger) (i : Nat) : (Nat × Nat × Nat) × MidiMessenger :=
  let s := mm.slots.getD i freeSlot
  ((s.cc_num, s.pg_num, s.bg_num),
   { mm with slots := mm.slots.set i { s with send_cc := false } })

/-- All slots free (the consumer's scan finds nothing). -/
def allFree (mm : MidiMessenger) : Bool :=
  mm.slots.all fun s => !s.send_cc

end MidiMessenger

/-! ## XJack realtime state (MidiKeyBoard.cpp lines 183-302, 1087-1126)

`store1`/`store2` are the two 256-capacity record buffers; `st` is XJack's
active-buffer pointer and `rec.st` the consolidator's hand-off pointer,
both represented by a `BufSel` naming the buffer they point at.  `rec.play`
(the consolidated take) is named `takeSeq`.  The scratch members `stop` and
`deltaTime` of XJack are written and read only inside a single frame
iteration, so they are kept as local values of the step functions.  The
`static unsigned int p` playback cursor of `process_midi_out` is state with
function lifetime; it lives in the record as `p`.  `record` and `play` are
the C++ `int` flags (set from the toggle-button adjustment values). -/

/-- A captured event, `typedef struct { ... } MidiEvent` (MidiKeyBoard.h):
`cc_num`, `pg_num`, `bg_num`, the byte count `me_num`, and `deltaTime`. -/
structure MidiEvent where
  cc_num : Nat
  pg_num : Nat
  bg_num : Nat
  me_num : Nat
  deltaTime : Nat
deriving Repr, DecidableEq, Inhabited

/-- Unsigned 32-bit subtraction `stop - start` on `jack_nframes_t`. -/
def u32sub (a b : Nat) : Nat :=
  (2 ^ 32 + a % 2 ^ 32 - b % 2 ^ 32) % 2 ^ 32

/-- Which of the two record buffers a pointer (`st` or `rec.st`) points at. -/
inductive BufSel where
  | one
  | two
deriving Repr, DecidableEq

def flipSel : BufSel → BufSel
  | .one => .two
  | .two => .one

structure XJackState where
  mm : MidiMessenger
  store1 : List MidiEvent
  store2 : List MidiEvent
  /-- XJack's `st` pointer (the buffer the realtime thread appends to). -/
  stSel : BufSel
  /-- `rec.st`, the buffer the consolidator drains when woken. -/
  recSel : BufSel
  /-- `rec.play`, the consolidated take. -/
  takeSeq : List MidiEvent
  record : Nat
  play : Nat
  fresh_take : Bool
  first_play : Bool
  /-- XJack's `start` frame-time anchor. -/
  startT : Nat
  /-- the `static unsigned int p` playback cursor of `process_midi_out`. -/
  p : Nat
  /-- `keys->in_key_matrix` of the keyboard widget (xkeyboard.c), updated
  by `get_midi_in` and cleared by `play_callback`/`channel_callback`. -/
  matrix : KeyMatrix
  /-- whether the `MidiRecord` consolidator thread is running. -/
  recRunning : Bool
  /-- ghost: number of `cv.notify_one()` wakes delivered to `MidiRecord`. -/
  wakes : Nat
  /-- ghost: sizes of the buffers drained by the consolidator, in order. -/
  handoffLog : List Nat
deriving Repr

def recBuf (s : XJackState) : List MidiEvent :=
  match s.recSel with
  | .one => s.store1
  | .two => s.store2

def activeBuf (s : XJackState) : List MidiEvent :=
  match s.stSel with
  | .one => s.store1
  | .two => s.store2

def inactiveBuf (s : XJackState) : List MidiEvent :=
  match s.stSel with
  | .one => s.store2
  | .two => s.store1

/-- One wake of the `MidiRecord` thread (MidiKeyBoard.cpp lines 156-166):
append `(*rec.st)` onto `rec.play` and clear the buffer.  Executed
atomically at each `cv.notify_one()` per the design's assumption that the
consolidator always finishes before the next hand-off (spec §4.3/§5). -/
def notifyDrain (s : XJackState) : XJackState :=
  let buf := recBuf s
  let s' := { s with takeSeq := s.takeSeq ++ buf,
                     wakes := s.wakes + 1,
                     handoffLog := s.handoffLog ++ [buf.length] }
  match s'.recSel with
  | .one => { s' with store1 := [] }
  | .two => { s' with store2 := [] }

def pushActive (ev : MidiEvent) (s : XJackState) : XJackState :=
  match s.stSel with
  | .one => { s with store1 := s.store1 ++ [ev] }
  | .two => { s with store2 := s.store2 ++ [ev] }

/-- The record branch of `process_midi_out` (lines 250-264), executed after
a message was successfully written to the port: build the `MidiEvent` with
`deltaTime = stop - start`, `st->push_back` it, swap the buffers and wake
the consolidator if a buffer reached capacity 256, and re-anchor `start`. -/
def recordPush (tm b0 b1 b2 sz : Nat) (s : XJackState) : XJackState :=
  let delta := u32sub tm s.startT
  let d := if sz > 2 then b2 else 0
  let ev : MidiEvent := ⟨b0, b1, d, sz, delta⟩
  let s1 := pushActive ev s
  let s2 :=
    if s1.store1.length ≥ 256 then
      notifyDrain { s1 with stSel := .two, recSel := .one }
    else if s1.store2.length ≥ 256 then
      notifyDrain { s1 with stSel := .one, recSel := .two }
    else s1
  { s2 with startT := tm }

/-- A staged message written to the output port at block time `tm`:
the raw slot bytes and the length `size(i)`. -/
structure TraceEntry where
  tm : Nat
  b0 : Nat
  b1 : Nat
  b2 : Nat
  sz : Nat
deriving Repr, DecidableEq

/-- A playback cursor advance: the take index replayed, the block time,
and whether the port reservation succeeded (bytes actually written). -/
structure PlayAdv where
  idx : Nat
  tm : Nat
  emitted : Bool
deriving Repr, DecidableEq

structure StageOut where
  st : XJackState
  emit : Option TraceEntry
deriving Repr

structure PlayOut where
  st : XJackState
  adv : Option PlayAdv
  /-- the `(cursor, take length)` pair at the `rec.play[p]` access. -/
  readp : Nat × Nat
deriving Repr

/-- The staging branch of `process_midi_out` (lines 245-266) for slot `j`:
try to reserve `size(j)` bytes at frame `n`; on success `fill` (which
releases the slot) and, when recording, run the record branch.  On failure
nothing at all happens to the state (the slot stays occupied). -/
def stageFrame (res : Nat → Nat → Bool) (tm n j : Nat) (s : XJackState) :
    StageOut :=
  let sz := s.mm.size j
  if res n sz then
    let r := s.mm.fill j
    let b0 := r.1.1
    let b1 := r.1.2.1
    let b2 := r.1.2.2
    let s1 := { s with mm := r.2 }
    let s2 := if s1.record ≠ 0 then recordPush tm b0 b1 b2 sz s1 else s1
    ⟨s2, some ⟨tm, b0, b1, b2, sz⟩⟩
  else ⟨s, none⟩

/-- The playback branch of `process_midi_out` (lines 268-298), reached when
no staged message is pending and `play && rec.play.size()`: on the first
playing frame re-anchor and reset the cursor; then if the elapsed time
reached the due event's `deltaTime`, try to write the event's bytes
(`res`), and — regardless of the reservation outcome — re-anchor `start`
and advance the cursor, wrapping to 0 past the last entry. -/
def playFrame (res : Nat → Nat → Bool) (tm n : Nat) (s : XJackState) :
    PlayOut :=
  let s1 := if s.first_play then
              { s with startT := tm, first_play := false, p := 0 }
            else s
  let delta := u32sub tm s1.startT
  let rp := (s1.p, s1.takeSeq.length)
  let ev := s1.takeSeq.getD s1.p default
  if delta ≥ ev.deltaTime then
    let em := res n ev.me_num
    let p' := if s1.p + 1 ≥ s1.takeSeq.length then 0 else s1.p + 1
    ⟨{ s1 with startT := tm, p := p' }, some ⟨s1.p, tm, em⟩, rp⟩
  else ⟨s1, none, rp⟩

structure FrameOut where
  st : XJackState
  nexti : Int
  emit : Option TraceEntry
  adv : Option PlayAdv
  readp : Option (Nat × Nat)
deriving Repr

/-- One iteration of the frame loop of `process_midi_out` (lines 240-300):
the recording anchor prologue (lines 241-244), then either the staging
branch with the scan cursor `i`, or the playback branch. -/
def processFrame (res : Nat → Nat → Bool) (tm n : Nat) (s : XJackState)
    (i : Int) : FrameOut :=
  let s0 := if s.record ≠ 0 then
              { s with startT := if s.fresh_take then tm else s.startT,
                       fresh_take := false }
            else s
  if i ≥ 0 then
    let r := stageFrame res tm n i.toNat s0
    ⟨r.st, r.st.mm.next i, r.emit, none, none⟩
  else if s0.play ≠ 0 ∧ s0.takeSeq.length ≠ 0 then
    let r := playFrame res tm n s0
    ⟨r.st, i, none, r.adv, some r.readp⟩
  else ⟨s0, i, none, none, none⟩

structure BlockOut where
  st : XJackState
  emits : List TraceEntry
  advs : List PlayAdv
  reads : List (Nat × Nat)
deriving Repr

/-- The `for (unsigned int n = 0; n < nframes; n++)` loop: `k` frames left,
current frame index `n`, scan cursor `i`. -/
def processFrames (res : Nat → Nat → Bool) (tm : Nat) :
    Nat → Nat → XJackState → Int → BlockOut
  | 0, _, s, _ => ⟨s, [], [], []⟩
  | k + 1, n, s, i =>
    let f := processFrame res tm n s i
    let r := processFrames res tm k (n + 1) f.st f.nexti
    ⟨r.st, f.emit.toList ++ r.emits, f.adv.toList ++ r.advs,
     f.readp.toList ++ r.reads⟩

/-- MidiKeyBoard.cpp lines 238-302: `int i = mmessage->next();` then the
frame loop. -/
def process_midi_out (res : Nat → Nat → Bool) (tm nframes : Nat)
    (s : XJackState) : BlockOut :=
  processFrames res tm nframes 0 s (s.mm.next (-1))

/-! ### UI transport callbacks (MidiKeyBoard.cpp lines 1087-1126)

`adj_set_value` on a toggle fires its value_changed callback only when the
value actually changes; the nested `adj_set_value(play->adj, 0.0)` inside
`record_callback` (and symmetrically inside `play_callback`) is therefore
modelled as running the other callback's off-branch exactly when the
corresponding flag is nonzero. -/

/-- `play_callback` with value 0 (lines 1118-1123): stop playing, clear the
held-note matrix, queue an all-notes-off (CC 123) and re-arm the playback
anchor. -/
def play_callback_off (s : XJackState) : XJackState :=
  let s1 := { s with play := 0 }
  let s2 := { s1 with matrix := clear_key_matrix s1.matrix }
  { s2 with mm := (s2.mm.send_midi_cc 0xB0 123 0 3).2, first_play := true }

/-- `record_callback` with value 0 (lines 1101-1108): point `rec.st` at
store2 exactly when it currently points at store1 and store2 is nonempty,
else at store1; then `rec.stop()`, whose notify lets the consolidator
drain that buffer once before the thread exits. -/
def record_callback_off (s : XJackState) : XJackState :=
  let s1 := { s with record := 0 }
  if s1.recRunning then
    let sel := if s1.recSel = BufSel.one ∧ s1.store2.length ≠ 0 then
                 BufSel.two
               else BufSel.one
    let s2 := notifyDrain { s1 with recSel := sel }
    { s2 with recRunning := false }
  else s1

/-- `play_callback` with value ≥ 1 (lines 1117, 1124): start playing and
force the record toggle off (which stops a running recording). -/
def play_callback_on (s : XJackState) : XJackState :=
  let s1 := { s with play := 1 }
  if s1.record ≠ 0 then record_callback_off s1 else s1

/-- `record_callback` with value ≥ 1 (lines 1092-1100): start recording;
force the play toggle off, clear both stores and the take, arm the fresh
take and playback anchors, and start the consolidator thread (`rec.start()`
first stops — and thereby drains — a still-running consolidator; the
buffers were just cleared, so that drain appends nothing). -/
def record_callback_on (s : XJackState) : XJackState :=
  let s1 := { s with record := 1 }
  let s2 := if s1.play ≠ 0 then play_callback_off s1 else s1
  let s3 := { s2 with store1 := [], store2 := [], takeSeq := [],
                      fresh_take := true, first_play := true }
  let s4 := if s3.recRunning then notifyDrain s3 else s3
  { s4 with recRunning := true }

/-- `get_midi_in` (line 511-514): the UI thread marks a key in the widget's
input matrix. -/
def midi_in_note (n : Nat) (isOn : Bool) (s : XJackState) : XJackState :=
  { s with matrix := set_key_in_matrix s.matrix n isOn }

/-- `channel_callback` (lines 952-961): set the messenger channel; while
playing, also clear the held-note matrix. -/
def channel_callback (c : Nat) (s : XJackState) : XJackState :=
  let s1 := { s with mm := { s.mm with channel := c } }
  if s1.play ≠ 0 then { s1 with matrix := clear_key_matrix s1.matrix } else s1

/-- The operations any thread may perform on the modelled state: a producer
`send_midi_cc`, the four transport transitions, a UI note notification, a
channel change, or one realtime block. -/
inductive Step where
  | submit (cc pg bgn num : Nat)
  | recordOn
  | recordOff
  | playOn
  | playOff
  | midiIn (n : Nat) (isOn : Bool)
  | setChannel (c : Nat)
  | block (res : Nat → Nat → Bool) (tm nframes : Nat)

def applyStep : Step → XJackState → XJackState
  | .submit cc pg bgn num, s => { s with mm := (s.mm.send_midi_cc cc pg bgn num).2 }
  | .recordOn, s => record_callback_on s
  | .recordOff, s => record_callback_off s
  | .playOn, s => play_callback_on s
  | .playOff, s => play_callback_off s
  | .midiIn n isOn, s => midi_in_note n isOn s
  | .setChannel c, s => channel_callback c s
  | .block res tm nf, s => (process_midi_out res tm nf s).st

/-- The state after the XJack constructor (lines 183-201) with a staging
table of `cnt` slots: transport stopped, both buffers empty, `st` and
`rec.st` both pointing at store1, channel 0. -/
def initState (cnt : Nat) : XJackState where
  mm := ⟨0, List.replicate cnt freeSlot⟩
  store1 := []
  store2 := []
  stSel := .one
  recSel := .one
  takeSeq := []
  record := 0
  play := 0
  fresh_take := true
  first_play := true
  startT := 0
  p := 0
  matrix := ⟨0, 0, 0, 0⟩
  recRunning := false
  wakes := 0
  handoffLog := []

inductive Reachable : XJackState → Prop where
  | init (cnt : Nat) : Reachable (initState cnt)
  | step (st : Step) {s : XJackState} : Reachable s → Reachable (applyStep st s)

def runSteps (l : List Step) (s : XJackState) : XJackState :=
  l.foldl (fun s st => applyStep st s) s

/-- The cursor-safety invariant maintained by every operation: outside
Playing the playback anchor is armed, Recording forces Playing off, the
record flag mirrors the consolidator thread, and mid-playback the cursor
stays below the take length. -/
structure Inv9 (s : XJackState) : Prop where
  playAnchor : s.play = 0 → s.first_play = true
  recStops : s.record ≠ 0 → s.play = 0
  recThread : s.record ≠ 0 ↔ s.recRunning = true
  cursor : s.play ≠ 0 → s.first_play = false → s.takeSeq ≠ [] →
    s.p < s.takeSeq.length

/-- One playback block: reservation oracle, block frame time, frame count. -/
structure PlayBlock where
  res : Nat → Nat → Bool
  tm : Nat
  nframes : Nat

/-- A sequence of realtime blocks in Playing mode, collecting every cursor
advance. -/
def runPlay : List PlayBlock → XJackState → XJackState × List PlayAdv
  | [], s => (s, [])
  | b :: rest, s =>
    let r := process_midi_out b.res b.tm b.nframes s
    let r2 := runPlay rest r.st
    (r2.1, r.advs ++ r2.2)

/-- The playback-run invariant: playing with an idle staging table and
take `T`; `cnt` cursor advances have happened since the anchor state. -/
def PInv (T : List MidiEvent) (cnt : Nat) (s : XJackState) : Prop :=
  s.play ≠ 0 ∧ s.record = 0 ∧ s.takeSeq = T ∧ s.mm.allFree = true ∧
  ((s.first_play = true ∧ cnt = 0) ∨
   (s.first_play = false ∧ s.p = cnt % T.length))

/-! ## Concrete runs used by the scenario theorems -/

def alwaysRes : Nat → Nat → Bool := fun _ _ => true

def neverRes : Nat → Nat → Bool := fun _ _ => false

/-- One recorded event: a producer submits a note-on and one single-frame
block at time `tm` drains and records it. -/
def evStep (tm : Nat) : List Step :=
  [.submit 0x90 60 100 3, .block alwaysRes tm 1]

/-- Events at block times `a, a+1, ..., a+n-1`. -/
def chunk (a n : Nat) : List Step := (List.range' a n).flatMap evStep

/-- Record 300 events (at block times 0..299) from a fresh state, then stop:
the spec's double-buffer hand-off scenario. -/
def scen300 : XJackState :=
  runSteps ([Step.recordOn] ++ chunk 0 300 ++ [Step.recordOff]) (initState 2)

/-- First recording session: 257 events, so the active buffer ends as
store2 (one capacity swap at event 256) and the final stop hand-off leaves
`rec.st` pointing at store2 as well. -/
def scenSession1 : XJackState :=
  runSteps ([Step.recordOn] ++ chunk 0 257 ++ [Step.recordOff]) (initState 2)

/-- Second session after `scenSession1`: enter Recording again, record two
events, stop. -/
def scenSecondTake : XJackState :=
  runSteps ([Step.recordOn] ++ chunk 0 2 ++ [Step.recordOff]) scenSession1

/-- A one-event session after `scenSession1`, exhibiting the stop hand-off
target selection. -/
def scenStopSelect : XJackState :=
  runSteps ([Step.recordOn] ++ chunk 0 1 ++ [Step.recordOff]) scenSession1

/-- Record four events at the same block time (all deltas 0), play three of
them in one block (cursor ends at 3), stop playing.  Used to show entering
Playing does not itself reset the stored cursor. -/
def scenCursor : XJackState :=
  runSteps ([Step.recordOn] ++ (evStep 0 ++ evStep 0 ++ evStep 0 ++ evStep 0) ++
            [Step.recordOff, Step.playOn, Step.block alwaysRes 9 3,
             Step.playOff])
    (initState 2)

/-- The recorded payload of the scenarios: note-on (0x90|channel 0, 60, 100)
with delta `d`. -/
def evRec (d : Nat) : MidiEvent := ⟨0x90, 60, 100, 3, d⟩

/-- Slot 0 of the scenario messenger after its message was drained: the
payload bytes stay, `send_cc` is false. -/
def usedSlot : Slot := ⟨0x90, 60, 100, 3, false⟩

def recStart : XJackState := applyStep .recordOn (initState 2)

/-- Closed form of the state after `recordOn` and events `0..k-1`, for
`1 ≤ k ≤ 255` (no swap yet): event 0 has delta 0 (anchored at record
start), every later event delta 1. -/
def phase1 (k : Nat) : XJackState where
  mm := ⟨0, [usedSlot, freeSlot]⟩
  store1 := evRec 0 :: List.replicate (k - 1) (evRec 1)
  store2 := []
  stSel := .one
  recSel := .one
  takeSeq := []
  record := 1
  play := 0
  fresh_take := false
  first_play := true
  startT := k - 1
  p := 0
  matrix := ⟨0, 0, 0, 0⟩
  recRunning := true
  wakes := 0
  handoffLog := []

/-- Closed form after events `0..k-1` for `256 ≤ k ≤ 300`: store1 was
handed off and drained at event 255, store2 is active. -/
def phase2 (k : Nat) : XJackState where
  mm := ⟨0, [usedSlot, freeSlot]⟩
  store1 := []
  store2 := List.replicate (k - 256) (evRec 1)
  stSel := .two
  recSel := .one
  takeSeq := evRec 0 :: List.replicate 255 (evRec 1)
  record := 1
  play := 0
  fresh_take := false
  first_play := true
  startT := k - 1
  p := 0
  matrix := ⟨0, 0, 0, 0⟩
  recRunning := true
  wakes := 1
  handoffLog := [256]


/-- `scen300` evaluated: stop hands store2 (44 events) to the consolidator;
the take holds all 300 events; the hand-offs were 256 then 44. -/
def scen300Final : XJackState where
  mm := ⟨0, [usedSlot, freeSlot]⟩
  store1 := []
  store2 := []
  stSel := .two
  recSel := .two
  takeSeq := (evRec 0 :: List.replicate 255 (evRec 1)) ++
             List.replicate 44 (evRec 1)
  record := 0
  play := 0
  fresh_take := false
  first_play := true
  startT := 299
  p := 0
  matrix := ⟨0, 0, 0, 0⟩
  recRunning := false
  wakes := 2
  handoffLog := [256, 44]

/-- `scenSession1` evaluated: a correct 257-event take, but both `st` and
`rec.st` end pointing at store2. -/
def session1Final : XJackState where
  mm := ⟨0, [usedSlot, freeSlot]⟩
  store1 := []
  store2 := []
  stSel := .two
  recSel := .two
  takeSeq := (evRec 0 :: List.replicate 255 (evRec 1)) ++
             List.replicate 1 (evRec 1)
  record := 0
  play := 0
  fresh_take := false
  first_play := true
  startT := 256
  p := 0
  matrix := ⟨0, 0, 0, 0⟩
  recRunning := false
  wakes := 2
  handoffLog := [256, 1]

/-- `scenSecondTake` evaluated: the two recorded events sit unconsolidated
in store2, the stop hand-off drained empty store1 (log entry 0), and the
take is empty. -/
def secondTakeFinal : XJackState where
  mm := ⟨0, [usedSlot, freeSlot]⟩
  store1 := []
  store2 := [evRec 0, evRec 1]
  stSel := .two
  recSel := .one
  takeSeq := []
  record := 0
  play := 0
  fresh_take := false
  first_play := true
  startT := 1
  p := 0
  matrix := ⟨0, 0, 0, 0⟩
  recRunning := false
  wakes := 3
  handoffLog := [256, 1, 0]

/-- `scenStopSelect` evaluated: store2 holds the one unconsolidated event
while the stop hand-off targeted store1. -/
def stopSelectFinal : XJackState where
  mm := ⟨0, [usedSlot, freeSlot]⟩
  store1 := []
  store2 := [evRec 0]
  stSel := .two
  recSel := .one
  takeSeq := []
  record := 0
  play := 0
  fresh_take := false
  first_play := true
  startT := 0
  p := 0
  matrix := ⟨0, 0, 0, 0⟩
  recRunning := false
  wakes := 3
  handoffLog := [256, 1, 0]

/-- Capacity-8 staging table, channel filter 0 (spec §8 scenario). -/
def mmC8 : MidiMessenger := ⟨0, List.replicate 8 freeSlot⟩

def c8first : Bool × MidiMessenger := mmC8.send_midi_cc 0x90 60 100 3

def c8second : Bool × MidiMessenger := c8first.2.send_midi_cc 0x80 60 100 3

def c8drain1 : (Nat × Nat × Nat) × MidiMessenger := c8second.2.fill 0

def c8drain2 : (Nat × Nat × Nat) × MidiMessenger := c8drain1.2.fill 1

/-- Two-slot table reached by: submit (0xB0,1,1,3), submit (0x90,60,100,3),
drain slot 0.  Slot 0 is free, slot 1 still holds (0x90,60,100,3). -/
def mmGap : MidiMessenger :=
  (((MidiMessenger.mk 0 (List.replicate 2 freeSlot)).send_midi_cc
      0xB0 1 1 3).2.send_midi_cc 0x90 60 100 3).2.fill 0 |>.2

/-- Resubmit the tuple already pending in slot 1 of `mmGap`. -/
def mmGapResubmit : Bool × MidiMessenger := mmGap.send_midi_cc 0x90 60 100 3

/-- State with one pending staging message (0xB0,7,100,3). -/
def c3pending : XJackState :=
  applyStep (.submit 0xB0 7 100 3) (initState 2)

/-- Block 1: the port refuses every reservation. -/
def c3blockFail : BlockOut := process_midi_out neverRes 0 1 c3pending

/-- Block 2, one block later: the port accepts. -/
def c3blockRetry : BlockOut := process_midi_out alwaysRes 1 1 c3blockFail.st

/-- A reachable Playing state with a one-event take: record one event, stop,
start playing. -/
def playReach : XJackState :=
  runSteps [Step.recordOn, Step.submit 0x90 60 100 3, Step.block alwaysRes 0 1,
            Step.recordOff, Step.playOn] (initState 2)

/-- One-event take for the playback-loop witness. -/
def takeC2 : List MidiEvent := [⟨0x90, 60, 100, 3, 0⟩]

/-- A Playing state holding `takeC2` with the anchor armed. -/
def playStateC2 : XJackState := { initState 2 with play := 1, takeSeq := takeC2 }

def blocksC2 : List PlayBlock := [⟨alwaysRes, 7, 2⟩]

/-! ## Key-matrix lemmas and claim C10 -/

set_option maxRecDepth 10000

/-- Distinct supported keys mapping to the same word get distinct effective
shift counts, so their mask bits never collide. -/
theorem key_offset_inj : ∀ k < 127, ∀ l < 127,
    wordIdx k = wordIdx l → keyShift k % 32 = keyShift l % 32 → k = l := by
  decide

theorem shiftMask_disjoint : ∀ t < 32, ∀ u < 32, t ≠ u →
    shiftMask t &&& shiftMask u = 0 := by decide

theorem clearMask_shiftMask_self : ∀ t < 32, clearMask t &&& shiftMask t = 0 := by
  decide

theorem clearMask_shiftMask_other : ∀ t < 32, ∀ u < 32, t ≠ u →
    clearMask t &&& shiftMask u = shiftMask u := by decide

theorem shiftMask_mod (s : Nat) : shiftMask s = shiftMask (s % 32) := by
  unfold shiftMask
  rw [Nat.mod_mod_of_dvd s dvd_rfl]

theorem clearMask_mod (s : Nat) : clearMask s = clearMask (s % 32) := by
  unfold clearMask
  rw [Nat.mod_mod_of_dvd s dvd_rfl]

theorem shiftMask_ne_zero (s : Nat) : shiftMask s ≠ 0 := by
  unfold shiftMask
  split
  · decide
  · exact (pow_pos (by norm_num) _).ne'

theorem and_lor_self (w a : Nat) : (w ||| a) &&& a = a := by
  apply Nat.eq_of_testBit_eq
  intro i
  simp only [Nat.testBit_and, Nat.testBit_or]
  cases w.testBit i <;> cases a.testBit i <;> rfl

theorem and_of_disjoint_or (w a b : Nat) (h : a &&& b = 0) :
    (w ||| a) &&& b = w &&& b := by
  apply Nat.eq_of_testBit_eq
  intro i
  have hb : (a.testBit i && b.testBit i) = false := by
    rw [← Nat.testBit_and, h, Nat.zero_testBit]
  simp only [Nat.testBit_and, Nat.testBit_or]
  cases hw : w.testBit i <;> cases ha : a.testBit i <;> cases hc : b.testBit i <;>
    simp_all

theorem and_and_of_eq (w c b : Nat) (h : c &&& b = b) :
    (w &&& c) &&& b = w &&& b := by
  rw [Nat.and_assoc, h]

theorem and_and_of_zero (w c b : Nat) (h : c &&& b = 0) :
    (w &&& c) &&& b = 0 := by
  rw [Nat.and_assoc, h, Nat.and_zero]

theorem foldl_and_clear (l : List Nat) : ∀ w m : Nat,
    l.foldl (fun a i => a &&& clearMask i) (w &&& m)
      = w &&& l.foldl (fun a i => a &&& clearMask i) m := by
  induction l with
  | nil => intro w m; rfl
  | cons x t ih =>
    intro w m
    simp only [List.foldl_cons]
    rw [Nat.and_assoc]
    exact ih w (m &&& clearMask x)

/-- The 32 `&= ~(1 << i)` iterations clear every bit of the word: the
`i = 31` mask `0x7FFFFFFF` also wipes bits 32-63. -/
theorem clearWord_eq_zero (w : Nat) : clearWord w = 0 := by
  have h : List.range 32 =
      0 :: [1, 2, 3, 4, 5, 6, 7, 8, 9, 10, 11, 12, 13, 14, 15, 16, 17, 18,
            19, 20, 21, 22, 23, 24, 25, 26, 27, 28, 29, 30, 31] := by decide
  unfold clearWord
  rw [h]
  show ([1, 2, 3, 4, 5, 6, 7, 8, 9, 10, 11, 12, 13, 14, 15, 16, 17, 18,
        19, 20, 21, 22, 23, 24, 25, 26, 27, 28, 29, 30, 31] :
      List Nat).foldl (fun a i => a &&& clearMask i) (w &&& clearMask 0) = 0
  rw [foldl_and_clear]
  rw [show ([1, 2, 3, 4, 5, 6, 7, 8, 9, 10, 11, 12, 13, 14, 15, 16, 17, 18,
            19, 20, 21, 22, 23, 24, 25, 26, 27, 28, 29, 30, 31] :
        List Nat).foldl (fun a i => a &&& clearMask i) (clearMask 0) = 0
      from by decide]
  exact Nat.and_zero w

theorem wordIdx_lt_four (key : Nat) : wordIdx key < 4 := by
  unfold wordIdx
  repeat' split
  all_goals omega

theorem getWord_setWord (m : KeyMatrix) (v : Nat) (j l : Nat) (hj : j < 4)
    (hl : l < 4) :
    getWord (setWord m j v) l = if j = l then v else getWord m l := by
  interval_cases j <;> interval_cases l <;> simp [getWord, setWord]

theorem getWord_zero_matrix (j : Nat) : getWord ⟨0, 0, 0, 0⟩ j = 0 := by
  unfold getWord
  repeat' split
  all_goals rfl

/-- C10: over the supported key range 0-126, `set_key_in_matrix` sets and
clears exactly the queried key's membership, leaves every other key's
membership unchanged, and `clear_key_matrix` empties the whole matrix. -/
theorem key_matrix_set_clear_ops (m : KeyMatrix) (key : Nat) (hk : key ≤ 126) :
    is_key_in_matrix (set_key_in_matrix m key true) key = true
  ∧ is_key_in_matrix (set_key_in_matrix m key false) key = false
  ∧ (∀ (b : Bool) (l : Nat), l ≤ 126 → l ≠ key →
      is_key_in_matrix (set_key_in_matrix m key b) l = is_key_in_matrix m l)
  ∧ (∀ l : Nat, l ≤ 126 → is_key_in_matrix (clear_key_matrix m) l = false) := by
  have hj := wordIdx_lt_four key
  have hmlt : keyShift key % 32 < 32 := Nat.mod_lt _ (by decide)
  refine ⟨?_, ?_, ?_, ?_⟩
  · simp only [is_key_in_matrix, set_key_in_matrix, if_true]
    rw [getWord_setWord m _ _ _ hj hj, if_pos rfl, and_lor_self]
    simp [shiftMask_ne_zero]
  · simp only [is_key_in_matrix, set_key_in_matrix, Bool.false_eq_true,
      if_false]
    rw [getWord_setWord m _ _ _ hj hj, if_pos rfl]
    rw [and_and_of_zero _ _ _ (by
      rw [clearMask_mod, shiftMask_mod]
      exact clearMask_shiftMask_self _ hmlt)]
    simp
  · intro b l hl hne
    have hjl := wordIdx_lt_four l
    have hmlt' : keyShift l % 32 < 32 := Nat.mod_lt _ (by decide)
    by_cases hw : wordIdx key = wordIdx l
    · have hoff : keyShift key % 32 ≠ keyShift l % 32 := by
        intro hEq
        exact hne (key_offset_inj l (by omega) key (by omega) hw.symm hEq.symm)
      cases b
      · simp only [is_key_in_matrix, set_key_in_matrix, Bool.false_eq_true,
          if_false]
        rw [getWord_setWord m _ _ _ hj hjl, if_pos hw, ← hw]
        rw [and_and_of_eq _ _ _ (by
          rw [clearMask_mod, shiftMask_mod]
          exact clearMask_shiftMask_other _ hmlt _ hmlt' hoff)]
      · simp only [is_key_in_matrix, set_key_in_matrix, if_true]
        rw [getWord_setWord m _ _ _ hj hjl, if_pos hw, ← hw]
        rw [and_of_disjoint_or _ _ _ (by
          rw [shiftMask_mod, shiftMask_mod (keyShift l)]
          exact shiftMask_disjoint _ hmlt _ hmlt' hoff)]
    · cases b <;>
      · simp only [is_key_in_matrix, set_key_in_matrix, Bool.false_eq_true,
          if_false, if_true]
        rw [getWord_setWord m _ _ _ hj hjl, if_neg hw]
  · intro l _
    simp only [is_key_in_matrix, clear_key_matrix, clearWord_eq_zero]
    rw [getWord_zero_matrix]
    simp

/-- Witness for C10 at a concrete matrix and key. -/
theorem key_matrix_set_clear_ops_witness :
    (60 : Nat) ≤ 126
  ∧ is_key_in_matrix (set_key_in_matrix ⟨5, 6, 7, 8⟩ 60 true) 60 = true :=
  ⟨by decide, (key_matrix_set_clear_ops ⟨5, 6, 7, 8⟩ 60 (by decide)).1⟩

/-! ## Evaluation of the recording scenarios in chunks -/

theorem runSteps_append (l1 l2 : List Step) (s : XJackState) :
    runSteps (l1 ++ l2) s = runSteps l2 (runSteps l1 s) := by
  simp [runSteps]

theorem chunk_split (a m n : Nat) :
    chunk a (m + n) = chunk a m ++ chunk (a + m) n := by
  unfold chunk
  rw [Nat.add_comm m n, ← List.range'_append_1 a m n, List.flatMap_append]

theorem recChunk1 : runSteps (chunk 0 100) recStart = phase1 100 := by rfl

theorem recChunk2 : runSteps (chunk 100 100) (phase1 100) = phase1 200 := by
  rfl

theorem recChunk3 : runSteps (chunk 200 55) (phase1 200) = phase1 255 := by rfl

theorem recChunk4 : runSteps (chunk 255 1) (phase1 255) = phase2 256 := by rfl

theorem recChunk5 : runSteps (chunk 256 44) (phase2 256) = phase2 300 := by
  rfl

theorem recChunk6 : runSteps (chunk 256 1) (phase2 256) = phase2 257 := by rfl

theorem scen300_eq : scen300 = applyStep .recordOff (phase2 300) := by
  have e1 : chunk 0 300 = chunk 0 100 ++ chunk 100 200 := chunk_split 0 100 200
  have e2 : chunk 100 200 = chunk 100 100 ++ chunk 200 100 :=
    chunk_split 100 100 100
  have e3 : chunk 200 100 = chunk 200 55 ++ chunk 255 45 := chunk_split 200 55 45
  have e4 : chunk 255 45 = chunk 255 1 ++ chunk 256 44 := chunk_split 255 1 44
  unfold scen300
  rw [e1, e2, e3, e4]
  simp only [runSteps_append, List.append_assoc]
  rw [show runSteps [Step.recordOn] (initState 2) = recStart from rfl,
      recChunk1, recChunk2, recChunk3, recChunk4, recChunk5]
  rfl

theorem scenSession1_eq : scenSession1 = applyStep .recordOff (phase2 257) := by
  have e1 : chunk 0 257 = chunk 0 100 ++ chunk 100 157 := chunk_split 0 100 157
  have e2 : chunk 100 157 = chunk 100 100 ++ chunk 200 57 :=
    chunk_split 100 100 57
  have e3 : chunk 200 57 = chunk 200 55 ++ chunk 255 2 := chunk_split 200 55 2
  have e4 : chunk 255 2 = chunk 255 1 ++ chunk 256 1 := chunk_split 255 1 1
  unfold scenSession1
  rw [e1, e2, e3, e4]
  simp only [runSteps_append, List.append_assoc]
  rw [show runSteps [Step.recordOn] (initState 2) = recStart from rfl,
      recChunk1, recChunk2, recChunk3, recChunk4, recChunk6]
  rfl

theorem scen300_final : scen300 = scen300Final := by
  rw [scen300_eq]
  rfl

theorem scenSession1_final : scenSession1 = session1Final := by
  rw [scenSession1_eq]
  rfl

theorem scenSecondTake_final : scenSecondTake = secondTakeFinal := by
  unfold scenSecondTake
  rw [scenSession1_final]
  rfl

theorem scenStopSelect_final : scenStopSelect = stopSelectFinal := by
  unfold scenStopSelect
  rw [scenSession1_final]
  rfl

/-! ## Staging-table lemmas and claims C4, C8 -/

/-- If every slot before an occupied slot holding the submitted tuple is
itself occupied, the scan reaches the match and returns success without
changing a single slot. -/
theorem sendScan_prefix_occupied (cc pg bgn num : Nat) :
    ∀ (pre : List Slot) (s : Slot) (rest : List Slot),
      (∀ x ∈ pre, x.send_cc = true) →
      s.send_cc = true → s.cc_num = cc → s.pg_num = pg → s.bg_num = bgn →
      s.me_num = num →
      MidiMessenger.sendScan cc pg bgn num (pre ++ s :: rest)
        = (true, pre ++ s :: rest) := by
  intro pre
  induction pre with
  | nil =>
    intro s rest _ hb h1 h2 h3 h4
    simp [MidiMessenger.sendScan, hb, h1, h2, h3, h4]
  | cons x t ih =>
    intro s rest hpre hb h1 h2 h3 h4
    have hx : x.send_cc = true := hpre x (by simp)
    by_cases hm : x.cc_num = cc ∧ x.pg_num = pg ∧ x.bg_num = bgn ∧
        x.me_num = num
    · simp [MidiMessenger.sendScan, hx, hm]
    · have hrec := ih s rest (fun y hy => hpre y (by simp [hy])) hb h1 h2 h3 h4
      simp [MidiMessenger.sendScan, hx, hm, hrec]

/-- Rescanning the slot list produced by a scan with the same tuple returns
the same answer and leaves the list unchanged. -/
theorem sendScan_idem (cc pg bgn num : Nat) :
    ∀ l : List Slot,
      MidiMessenger.sendScan cc pg bgn num
          (MidiMessenger.sendScan cc pg bgn num l).2
        = MidiMessenger.sendScan cc pg bgn num l := by
  intro l
  induction l with
  | nil => rfl
  | cons s rest ih =>
    by_cases hb : s.send_cc
    · by_cases hm : s.cc_num = cc ∧ s.pg_num = pg ∧ s.bg_num = bgn ∧
          s.me_num = num
      · simp [MidiMessenger.sendScan, hb, hm]
      · simp [MidiMessenger.sendScan, hb, hm, ih]
    · simp [MidiMessenger.sendScan, hb]

/-- C4 amended: `send_midi_cc` of a tuple already pending returns success
and leaves the table unchanged when the matching occupied slot precedes
every free slot of the scan; in particular submitting the same tuple twice
in a row is idempotent (the second call returns the same result and the
same table, whatever the table was). -/
theorem send_midi_cc_dedup (mm : MidiMessenger) (cc pg bgn num : Nat) :
    (∀ (pre rest : List Slot) (s : Slot),
       mm.slots = pre ++ s :: rest →
       (∀ x ∈ pre, x.send_cc = true) →
       s.send_cc = true → s.cc_num = (cc ||| mm.channel) → s.pg_num = pg →
       s.bg_num = bgn → s.me_num = num →
       mm.send_midi_cc cc pg bgn num = (true, mm))
  ∧ (mm.send_midi_cc cc pg bgn num).2.send_midi_cc cc pg bgn num
      = mm.send_midi_cc cc pg bgn num := by
  constructor
  · intro pre rest s hsl hpre hb h1 h2 h3 h4
    unfold MidiMessenger.send_midi_cc
    rw [hsl, sendScan_prefix_occupied (cc ||| mm.channel) pg bgn num pre s rest
          hpre hb h1 h2 h3 h4]
    rw [← hsl]
  · unfold MidiMessenger.send_midi_cc
    simp [sendScan_idem]

/-- Witness for C4's amended theorem: resubmitting right after a fresh
submission of (0x90,60,100,3) is a no-op. -/
theorem send_midi_cc_dedup_witness :
    (mmC8.send_midi_cc 0x90 60 100 3).2.send_midi_cc 0x90 60 100 3
      = mmC8.send_midi_cc 0x90 60 100 3 :=
  (send_midi_cc_dedup mmC8 0x90 60 100 3).2

/-- C4 counterexample: in `mmGap` (slot 0 free, slot 1 occupied with
(0x90,60,100,3), a state reached through the public API), resubmitting the
identical pending tuple occupies a second slot — the table changes and two
occupied slots hold the same tuple, contradicting "the table state is
unchanged: no second slot becomes occupied". -/
theorem send_midi_cc_dup_slots :
    (mmGap.slots.getD 0 freeSlot).send_cc = false
  ∧ mmGap.slots.getD 1 freeSlot = ⟨0x90, 60, 100, 3, true⟩
  ∧ mmGapResubmit.1 = true
  ∧ mmGapResubmit.2 ≠ mmGap
  ∧ (mmGapResubmit.2.slots.filter (fun s => s.send_cc)).length = 2 := by
  refine ⟨by decide, by decide, by decide, by decide, by decide⟩

/-- C8: submitting (0x90,60,100,3) then (0x80,60,100,3) to the empty
capacity-8 table occupies two distinct slots; the consumer scan yields
index 0 then 1 then none; draining both returns exactly the submitted
payloads (3 bytes each) and leaves every slot free. -/
theorem staging_two_submissions_scenario :
    c8first.1 = true
  ∧ c8second.1 = true
  ∧ (c8second.2.slots.filter (fun s => s.send_cc)).length = 2
  ∧ c8second.2.next (-1) = 0
  ∧ c8second.2.next 0 = 1
  ∧ c8second.2.next 1 = -1
  ∧ MidiMessenger.size c8second.2 0 = 3
  ∧ c8drain1.1 = (0x90, 60, 100)
  ∧ MidiMessenger.size c8drain1.2 1 = 3
  ∧ c8drain2.1 = (0x80, 60, 100)
  ∧ c8drain2.2.allFree = true := by
  refine ⟨by decide, by decide, by decide, by decide, by decide, by decide,
    by decide, by decide, by decide, by decide, by decide⟩

/-! ## Claim C3: events skipped on failed port reservation -/

/-- C3 counterexample: the pending staging message (0xB0,7,100,3) fails its
reservation in the first block — nothing is emitted — but its slot stays
occupied, and the very next block emits it: the event IS retried in a later
block, and the occupied slot is exactly the state that remembers it. -/
theorem staging_message_retried_after_failed_reserve :
    c3blockFail.emits = []
  ∧ (c3blockFail.st.mm.slots.getD 0 freeSlot).send_cc = true
  ∧ c3blockRetry.emits = [⟨1, 0xB0, 7, 100, 3⟩] := by
  refine ⟨by decide, by decide, by decide⟩

/-- C3 amended: a staging message whose reservation fails is skipped for
the block with its slot left untouched (hence occupied, so a later block's
scan retries it), while a due playback event advances the cursor and resets
the anchor identically whether or not the reservation succeeds — the
playback event, not the staging message, is the one that is never
retried. -/
theorem reserve_failure_skip (res res2 : Nat → Nat → Bool) (tm n j : Nat)
    (s : XJackState) (h : res n (s.mm.size j) = false) :
    stageFrame res tm n j s = ⟨s, none⟩
  ∧ (playFrame res tm n s).st = (playFrame res2 tm n s).st
  ∧ ((playFrame res tm n s).adv).isSome = ((playFrame res2 tm n s).adv).isSome := by
  refine ⟨?_, ?_, ?_⟩
  · simp [stageFrame, h]
  · unfold playFrame
    dsimp only
    repeat' split
    all_goals rfl
  · unfold playFrame
    dsimp only
    repeat' split
    all_goals rfl

/-- Witness for C3's amended theorem at a failing reservation oracle. -/
theorem reserve_failure_skip_witness :
    neverRes 0 ((initState 2).mm.size 0) = false
  ∧ stageFrame neverRes 0 0 0 (initState 2) = ⟨initState 2, none⟩ :=
  ⟨rfl, (reserve_failure_skip neverRes alwaysRes 0 0 0 (initState 2) rfl).1⟩

/-! ## Claim C5: capacity hand-off, and the 300-event scenario -/

/-- C5: pushing the 256th event into the active buffer while the other
buffer is empty performs exactly one role swap (`st` flips, `rec.st` takes
the filled buffer) and exactly one consolidator wake; the drain leaves both
buffers empty (the filled one is reusable) and appends the 256 events to
the take.  Concretely, recording 300 events from a fresh state produces
exactly the hand-offs 256 and 44 (two wakes) and a take of 300 events. -/
theorem record_buffer_capacity_handoff :
    (∀ (s : XJackState) (tm b0 b1 b2 sz : Nat),
       (activeBuf s).length = 255 → inactiveBuf s = [] →
       (recordPush tm b0 b1 b2 sz s).wakes = s.wakes + 1
       ∧ (recordPush tm b0 b1 b2 sz s).handoffLog = s.handoffLog ++ [256]
       ∧ (recordPush tm b0 b1 b2 sz s).store1 = []
       ∧ (recordPush tm b0 b1 b2 sz s).store2 = []
       ∧ (recordPush tm b0 b1 b2 sz s).takeSeq
           = s.takeSeq ++ (activeBuf s
               ++ [⟨b0, b1, if sz > 2 then b2 else 0, sz, u32sub tm s.startT⟩])
       ∧ (recordPush tm b0 b1 b2 sz s).stSel = flipSel s.stSel
       ∧ (recordPush tm b0 b1 b2 sz s).recSel = s.stSel)
  ∧ scen300.handoffLog = [256, 44]
  ∧ scen300.wakes = 2
  ∧ scen300.takeSeq.length = 300 := by
  refine ⟨?_, ?_, ?_, ?_⟩
  · intro s tm b0 b1 b2 sz hact hin
    cases hsel : s.stSel
    · have h1 : s.store1.length = 255 := by
        simpa [activeBuf, hsel] using hact
      have h2 : s.store2 = [] := by
        simpa [inactiveBuf, hsel] using hin
      simp [recordPush, pushActive, notifyDrain, recBuf, activeBuf, flipSel,
        hsel, h1, h2]
    · have h1 : s.store2.length = 255 := by
        simpa [activeBuf, hsel] using hact
      have h2 : s.store1 = [] := by
        simpa [inactiveBuf, hsel] using hin
      simp [recordPush, pushActive, notifyDrain, recBuf, activeBuf, flipSel,
        hsel, h1, h2]
  · rw [scen300_final]; rfl
  · rw [scen300_final]; rfl
  · rw [scen300_final]
    show ((evRec 0 :: List.replicate 255 (evRec 1)) ++
          List.replicate 44 (evRec 1)).length = 300
    simp

/-- Witness for C5: the general hand-off conjunct applied to the concrete
state holding 255 recorded events. -/
theorem record_buffer_capacity_handoff_witness :
    (activeBuf (phase1 255)).length = 255
  ∧ inactiveBuf (phase1 255) = []
  ∧ (recordPush 255 0x90 60 100 3 (phase1 255)).wakes = (phase1 255).wakes + 1 := by
  refine ⟨?_, ?_, ?_⟩
  · simp [phase1, activeBuf]
  · rfl
  · exact (record_buffer_capacity_handoff.1 (phase1 255) 255 0x90 60 100 3
      (by simp [phase1, activeBuf]) rfl).1

/-! ## Claims C1 and C6: the lost second take (code bug) -/

/-- C1 evaluated at the failing input: the first 257-event session yields a
complete take, but the following 2-event session ends with an empty take —
the two events recorded by the realtime callback are stranded in store2 and
the stop hand-off drained the empty store1 (final log entry 0). -/
theorem second_take_events_lost :
    scenSession1.takeSeq.length = 257
  ∧ scenSecondTake.store2.length = 2
  ∧ scenSecondTake.takeSeq = []
  ∧ scenSecondTake.wakes = 3
  ∧ scenSecondTake.handoffLog = [256, 1, 0] := by
  refine ⟨?_, ?_, ?_, ?_, ?_⟩
  · rw [scenSession1_final]
    show ((evRec 0 :: List.replicate 255 (evRec 1)) ++
          List.replicate 1 (evRec 1)).length = 257
    simp
  · rw [scenSecondTake_final]; rfl
  · rw [scenSecondTake_final]; rfl
  · rw [scenSecondTake_final]; rfl
  · rw [scenSecondTake_final]; rfl

/-! ## Preservation of the cursor-safety invariant `Inv9` -/

theorem wrap_lt (p N : Nat) (h : p < N) :
    (if p + 1 ≥ N then 0 else p + 1) < N := by
  split
  · omega
  · omega

theorem recordPush_flags (tm b0 b1 b2 sz : Nat) (s : XJackState) :
    (recordPush tm b0 b1 b2 sz s).play = s.play
  ∧ (recordPush tm b0 b1 b2 sz s).record = s.record
  ∧ (recordPush tm b0 b1 b2 sz s).first_play = s.first_play
  ∧ (recordPush tm b0 b1 b2 sz s).recRunning = s.recRunning := by
  refine ⟨?_, ?_, ?_, ?_⟩ <;>
  · unfold recordPush pushActive notifyDrain recBuf
    dsimp only
    repeat' split
    all_goals rfl

theorem stageFrame_flags (res : Nat → Nat → Bool) (tm n j : Nat)
    (s : XJackState) :
    (stageFrame res tm n j s).st.play = s.play
  ∧ (stageFrame res tm n j s).st.record = s.record
  ∧ (stageFrame res tm n j s).st.first_play = s.first_play
  ∧ (stageFrame res tm n j s).st.recRunning = s.recRunning := by
  unfold stageFrame
  dsimp only
  split
  · split
    · exact ⟨(recordPush_flags _ _ _ _ _ _).1, (recordPush_flags _ _ _ _ _ _).2.1,
        (recordPush_flags _ _ _ _ _ _).2.2.1, (recordPush_flags _ _ _ _ _ _).2.2.2⟩
    · exact ⟨rfl, rfl, rfl, rfl⟩
  · exact ⟨rfl, rfl, rfl, rfl⟩

theorem stageFrame_norec (res : Nat → Nat → Bool) (tm n j : Nat)
    (s : XJackState) (h : s.record = 0) :
    (stageFrame res tm n j s).st.takeSeq = s.takeSeq
  ∧ (stageFrame res tm n j s).st.p = s.p := by
  unfold stageFrame
  dsimp only
  split
  · split
    · next h2 => exact absurd h h2
    · exact ⟨rfl, rfl⟩
  · exact ⟨rfl, rfl⟩

theorem inv9_stage (res : Nat → Nat → Bool) (tm n j : Nat) (s : XJackState)
    (h : Inv9 s) : Inv9 (stageFrame res tm n j s).st := by
  have hf := stageFrame_flags res tm n j s
  constructor
  · intro hp
    rw [hf.2.2.1]
    exact h.playAnchor (by rw [← hf.1]; exact hp)
  · intro hrec
    rw [hf.1]
    exact h.recStops (by rw [← hf.2.1]; exact hrec)
  · rw [hf.2.1, hf.2.2.2]
    exact h.recThread
  · intro hp hfp htk
    have hp' : s.play ≠ 0 := by rw [← hf.1]; exact hp
    have hr0 : s.record = 0 := by
      by_contra hr
      exact hp' (h.recStops hr)
    have hnr := stageFrame_norec res tm n j s hr0
    rw [hnr.1, hnr.2]
    rw [hnr.1] at htk
    exact h.cursor hp' (by rw [← hf.2.2.1]; exact hfp) htk

theorem inv9_play (res : Nat → Nat → Bool) (tm n : Nat) (s : XJackState)
    (h : Inv9 s) (hp : s.play ≠ 0) (ht : s.takeSeq.length ≠ 0) :
    Inv9 (playFrame res tm n s).st
  ∧ (playFrame res tm n s).readp.1 < (playFrame res tm n s).readp.2 := by
  have hlen : 0 < s.takeSeq.length := Nat.pos_of_ne_zero ht
  unfold playFrame
  dsimp only
  by_cases hfp : s.first_play = true
  · simp only [hfp, if_true]
    split
    · refine ⟨⟨?_, ?_, ?_, ?_⟩, ?_⟩
      · intro h0; exact absurd h0 hp
      · intro hr; exact absurd (h.recStops hr) hp
      · exact h.recThread
      · intro _ _ _
        exact wrap_lt 0 s.takeSeq.length hlen
      · exact hlen
    · refine ⟨⟨?_, ?_, ?_, ?_⟩, ?_⟩
      · intro h0; exact absurd h0 hp
      · intro hr; exact absurd (h.recStops hr) hp
      · exact h.recThread
      · intro _ _ _
        exact hlen
      · exact hlen
  · have hfp' : s.first_play = false := by
      cases hb : s.first_play
      · rfl
      · exact absurd hb hfp
    have hcur : s.p < s.takeSeq.length :=
      h.cursor hp hfp' (by intro hnil; rw [hnil] at hlen; exact absurd hlen (by simp))
    simp only [hfp', Bool.false_eq_true, if_false]
    split
    · refine ⟨⟨?_, ?_, ?_, ?_⟩, ?_⟩
      · intro h0; exact absurd h0 hp
      · intro hr; exact absurd (h.recStops hr) hp
      · exact h.recThread
      · intro _ _ _
        exact wrap_lt s.p s.takeSeq.length hcur
      · exact hcur
    · refine ⟨⟨?_, ?_, ?_, ?_⟩, ?_⟩
      · intro h0; exact absurd h0 hp
      · intro hr; exact absurd (h.recStops hr) hp
      · exact h.recThread
      · intro _ _ _
        exact hcur
      · exact hcur

theorem inv9_processFrame (res : Nat → Nat → Bool) (tm n : Nat)
    (s : XJackState) (i : Int) (h : Inv9 s) :
    Inv9 (processFrame res tm n s i).st
  ∧ ∀ pr : Nat × Nat, (processFrame res tm n s i).readp = some pr →
      pr.1 < pr.2 := by
  by_cases hr : s.record ≠ 0
  · unfold processFrame
    dsimp only
    rw [if_pos hr]
    set S := { s with startT := (if s.fresh_take then tm else s.startT),
                      fresh_take := false } with hSdef
    have h0 : Inv9 S := ⟨h.playAnchor, h.recStops, h.recThread, h.cursor⟩
    split
    · refine ⟨inv9_stage _ _ _ _ _ h0, ?_⟩
      intro pr hpr
      simp at hpr
    · split
      · next hcond =>
        refine ⟨(inv9_play _ _ _ _ h0 hcond.1 hcond.2).1, ?_⟩
        intro pr hpr
        have hx := Option.some.inj hpr
        rw [← hx]
        exact (inv9_play _ _ _ _ h0 hcond.1 hcond.2).2
      · refine ⟨h0, ?_⟩
        intro pr hpr
        simp at hpr
  · unfold processFrame
    dsimp only
    rw [if_neg hr]
    split
    · refine ⟨inv9_stage _ _ _ _ _ h, ?_⟩
      intro pr hpr
      simp at hpr
    · split
      · next hcond =>
        refine ⟨(inv9_play _ _ _ _ h hcond.1 hcond.2).1, ?_⟩
        intro pr hpr
        have hx := Option.some.inj hpr
        rw [← hx]
        exact (inv9_play _ _ _ _ h hcond.1 hcond.2).2
      · refine ⟨h, ?_⟩
        intro pr hpr
        simp at hpr

theorem inv9_processFrames (res : Nat → Nat → Bool) (tm : Nat) :
    ∀ (k n : Nat) (s : XJackState) (i : Int), Inv9 s →
      Inv9 (processFrames res tm k n s i).st
    ∧ ∀ pr ∈ (processFrames res tm k n s i).reads, pr.1 < pr.2 := by
  intro k
  induction k with
  | zero =>
    intro n s i h
    refine ⟨h, ?_⟩
    intro pr hpr
    simp [processFrames] at hpr
  | succ k ih =>
    intro n s i h
    have hf := inv9_processFrame res tm n s i h
    have hrest := ih (n + 1) (processFrame res tm n s i).st
      (processFrame res tm n s i).nexti hf.1
    refine ⟨?_, ?_⟩
    · show Inv9 (processFrames res tm (k + 1) n s i).st
      simp only [processFrames]
      exact hrest.1
    · intro pr hpr
      simp only [processFrames] at hpr
      rw [List.mem_append] at hpr
      cases hpr with
      | inl hl =>
        cases ho : (processFrame res tm n s i).readp with
        | none => rw [ho] at hl; simp at hl
        | some a =>
          rw [ho] at hl
          simp at hl
          rw [hl]
          exact hf.2 a ho
      | inr hrr => exact hrest.2 pr hrr

theorem notifyDrain_flags (s : XJackState) :
    (notifyDrain s).play = s.play
  ∧ (notifyDrain s).record = s.record
  ∧ (notifyDrain s).first_play = s.first_play
  ∧ (notifyDrain s).p = s.p := by
  refine ⟨?_, ?_, ?_, ?_⟩ <;>
  · unfold notifyDrain recBuf
    dsimp only
    repeat' split
    all_goals rfl

/-- Stopping the consolidator right after arming the playback anchor keeps
the invariant, whatever buffer the final drain targeted. -/
theorem inv9_drain_stop (t : XJackState) (hrec : t.record = 0)
    (hfp : t.first_play = true) :
    Inv9 { notifyDrain t with recRunning := false } := by
  refine ⟨?_, ?_, ?_, ?_⟩
  · intro _
    show (notifyDrain t).first_play = true
    rw [(notifyDrain_flags t).2.2.1]
    exact hfp
  · intro hr
    exfalso
    apply hr
    show (notifyDrain t).record = 0
    rw [(notifyDrain_flags t).2.1]
    exact hrec
  · constructor
    · intro hr
      exfalso
      apply hr
      show (notifyDrain t).record = 0
      rw [(notifyDrain_flags t).2.1]
      exact hrec
    · intro hrun
      exact Bool.noConfusion hrun
  · intro _ hfp2 _
    have h2 : (notifyDrain t).first_play = false := hfp2
    rw [(notifyDrain_flags t).2.2.1, hfp] at h2
    exact Bool.noConfusion h2

theorem inv9_record_off (s : XJackState) (h : Inv9 s) :
    Inv9 (record_callback_off s) := by
  unfold record_callback_off
  dsimp only
  split
  · next hrun =>
    have hrec : s.record ≠ 0 := h.recThread.mpr hrun
    have hplay : s.play = 0 := h.recStops hrec
    exact inv9_drain_stop _ rfl (h.playAnchor hplay)
  · next hrun =>
    refine ⟨h.playAnchor, ?_, ?_, h.cursor⟩
    · intro hrec0
      exact absurd rfl hrec0
    · constructor
      · intro hrec0
        exact absurd rfl hrec0
      · intro hrun2
        exact absurd hrun2 hrun

theorem inv9_record_on (s : XJackState) : Inv9 (record_callback_on s) := by
  unfold record_callback_on play_callback_off
  dsimp only
  split
  · split
    · refine ⟨?_, ?_, ?_, ?_⟩
      · intro _
        exact (notifyDrain_flags _).2.2.1
      · intro _
        exact (notifyDrain_flags _).1
      · constructor
        · intro _; rfl
        · intro _
          rw [(notifyDrain_flags _).2.1]
          exact one_ne_zero
      · intro hp _ _
        exact absurd ((notifyDrain_flags _).1) hp
    · refine ⟨?_, ?_, ?_, ?_⟩
      · intro _; rfl
      · intro _; rfl
      · constructor
        · intro _; rfl
        · intro _; exact one_ne_zero
      · intro hp _ _
        exact absurd rfl hp
  · next hplay =>
    have hp0 : s.play = 0 := by
      by_contra hne
      exact hplay hne
    split
    · refine ⟨?_, ?_, ?_, ?_⟩
      · intro _
        exact (notifyDrain_flags _).2.2.1
      · intro _
        rw [(notifyDrain_flags _).1]
        exact hp0
      · constructor
        · intro _; rfl
        · intro _
          rw [(notifyDrain_flags _).2.1]
          exact one_ne_zero
      · intro hp _ _
        rw [(notifyDrain_flags _).1] at hp
        exact absurd hp0 hp
    · refine ⟨?_, ?_, ?_, ?_⟩
      · intro _; rfl
      · intro _
        exact hp0
      · constructor
        · intro _; rfl
        · intro _; exact one_ne_zero
      · intro hp _ _
        exact absurd hp0 hp

theorem inv9_play_off (s : XJackState) (h : Inv9 s) :
    Inv9 (play_callback_off s) := by
  unfold play_callback_off
  dsimp only
  refine ⟨?_, ?_, ?_, ?_⟩
  · intro _; rfl
  · intro _; rfl
  · exact h.recThread
  · intro hp _ _
    exact absurd rfl hp

theorem inv9_play_on (s : XJackState) (h : Inv9 s) :
    Inv9 (play_callback_on s) := by
  unfold play_callback_on record_callback_off
  dsimp only
  split
  · next hrec =>
    have hrec' : s.record ≠ 0 := hrec
    have hplay : s.play = 0 := h.recStops hrec'
    have hfp : s.first_play = true := h.playAnchor hplay
    split
    · exact inv9_drain_stop _ rfl hfp
    · next hrun =>
      refine ⟨?_, ?_, ?_, ?_⟩
      · intro h0
        exact absurd h0 one_ne_zero
      · intro hrec0
        exact absurd rfl hrec0
      · constructor
        · intro hrec0
          exact absurd rfl hrec0
        · intro hrun2
          exact absurd hrun2 hrun
      · intro _ hfp2 _
        have h2 : s.first_play = false := hfp2
        rw [hfp] at h2
        exact Bool.noConfusion h2
  · next hrec =>
    have hrec0 : s.record = 0 := by
      by_contra hne
      exact hrec hne
    refine ⟨?_, ?_, ?_, ?_⟩
    · intro h0
      exact absurd h0 one_ne_zero
    · intro hr
      exact absurd hrec0 hr
    · exact h.recThread
    · intro _ hfp2 htk
      by_cases hp0 : s.play = 0
      · have := h.playAnchor hp0
        rw [show ({ s with play := 1 } : XJackState).first_play
              = s.first_play from rfl, this] at hfp2
        exact Bool.noConfusion hfp2
      · exact h.cursor hp0 hfp2 htk

theorem inv9_channel (c : Nat) (s : XJackState) (h : Inv9 s) :
    Inv9 (channel_callback c s) := by
  unfold channel_callback
  dsimp only
  split
  · exact ⟨h.playAnchor, h.recStops, h.recThread, h.cursor⟩
  · exact ⟨h.playAnchor, h.recStops, h.recThread, h.cursor⟩

/-- Every reachable state satisfies the cursor-safety invariant. -/
theorem reachable_inv9 (s : XJackState) (hs : Reachable s) : Inv9 s := by
  induction hs with
  | init cnt =>
    refine ⟨?_, ?_, ?_, ?_⟩
    · intro _; rfl
    · intro _; rfl
    · constructor
      · intro h0
        exact absurd rfl h0
      · intro h0
        exact Bool.noConfusion h0
    · intro hp _ _
      exact absurd rfl hp
  | step op hs ih =>
    cases op with
    | submit cc pg bgn num =>
      exact ⟨ih.playAnchor, ih.recStops, ih.recThread, ih.cursor⟩
    | recordOn => exact inv9_record_on _
    | recordOff => exact inv9_record_off _ ih
    | playOn => exact inv9_play_on _ ih
    | playOff => exact inv9_play_off _ ih
    | midiIn n isOn =>
      exact ⟨ih.playAnchor, ih.recStops, ih.recThread, ih.cursor⟩
    | setChannel c => exact inv9_channel _ _ ih
    | block res tm nf =>
      exact (inv9_processFrames res tm nf 0 _ _ ih).1

/-- C9: in every reachable state, every `rec.play[p]` access performed by
the playback branch of the realtime callback is in bounds: the branch is
guarded by a non-empty take, the cursor is reset to 0 on the first playing
frame, and every advance wraps before reaching the length. -/
theorem playback_take_reads_in_bounds (s : XJackState) (hs : Reachable s)
    (res : Nat → Nat → Bool) (tm nframes : Nat) :
    ∀ pr ∈ (process_midi_out res tm nframes s).reads, pr.1 < pr.2 :=
  (inv9_processFrames res tm nframes 0 s (s.mm.next (-1))
    (reachable_inv9 s hs)).2

/-- Witness for C9: one playback block from a concrete reachable Playing
state with a one-event take performs the in-bounds read (0, 1). -/
theorem playback_take_reads_in_bounds_witness :
    ((0, 1) : Nat × Nat) ∈ (process_midi_out alwaysRes 5 1 playReach).reads
  ∧ (0 : Nat) < 1 :=
  ⟨by decide,
   playback_take_reads_in_bounds playReach
     (Reachable.step .playOn (Reachable.step .recordOff
       (Reachable.step (.block alwaysRes 0 1) (Reachable.step
         (.submit 0x90 60 100 3) (Reachable.step .recordOn
           (Reachable.init 2)))))) alwaysRes 5 1 (0, 1) (by decide)⟩

/-! ## Claim C7: transport transition postconditions -/

/-- After `clear_key_matrix` no key at all is reported held. -/
theorem is_key_clear_matrix (m : KeyMatrix) (k : Nat) :
    is_key_in_matrix (clear_key_matrix m) k = false := by
  simp only [is_key_in_matrix, clear_key_matrix, clearWord_eq_zero]
  rw [getWord_zero_matrix]
  simp

theorem record_callback_off_first_play (s : XJackState) :
    (record_callback_off s).first_play = s.first_play := by
  unfold record_callback_off
  dsimp only
  split
  · exact (notifyDrain_flags _).2.2.1
  · rfl

theorem play_callback_on_first_play (s : XJackState)
    (hfp : s.first_play = true) :
    (play_callback_on s).first_play = true := by
  unfold play_callback_on
  dsimp only
  split
  · rw [record_callback_off_first_play]
    exact hfp
  · exact hfp

theorem playFrame_first_read (t : XJackState) (hfp : t.first_play = true)
    (res : Nat → Nat → Bool) (tm n : Nat) :
    (playFrame res tm n t).readp.1 = 0 := by
  unfold playFrame
  dsimp only
  rw [if_pos hfp]
  split
  · rfl
  · rfl

/-- C7 counterexample: after a reachable run leaves the playback cursor at
3, entering Playing again does not reset the stored cursor to 0 (the claim
asserts "entering Playing ... resets the playback cursor to 0"); only
`firstPlay` is (still) true at the transition. -/
theorem entering_playing_keeps_stale_cursor :
    scenCursor.play = 0
  ∧ scenCursor.p = 3
  ∧ (play_callback_on scenCursor).p = 3
  ∧ ¬(play_callback_on scenCursor).p = 0
  ∧ (play_callback_on scenCursor).first_play = true := by
  refine ⟨by decide, by decide, by decide, by decide, by decide⟩

/-- C7 amended: entering Recording clears the take and both record buffers
and arms both anchors; entering Playing from any reachable non-playing
state leaves `first_play` true, and the playback cursor is therefore set
to 0 lazily — on the first Playing frame, before any take entry is read
(the stored cursor is not touched at the transition itself); leaving
Playing stops playback, re-arms the anchor, queues the all-notes-off
control change (CC 123) in the staging table, and clears the held-note
matrix. -/
theorem transport_transition_postconditions :
    (∀ s : XJackState,
       (record_callback_on s).takeSeq = []
       ∧ (record_callback_on s).store1 = []
       ∧ (record_callback_on s).store2 = []
       ∧ (record_callback_on s).fresh_take = true
       ∧ (record_callback_on s).first_play = true)
  ∧ (∀ s : XJackState, Reachable s → s.play = 0 →
       (play_callback_on s).first_play = true
       ∧ ∀ (res : Nat → Nat → Bool) (tm n : Nat),
           (playFrame res tm n (play_callback_on s)).readp.1 = 0)
  ∧ (∀ s : XJackState,
       (play_callback_off s).play = 0
       ∧ (play_callback_off s).first_play = true
       ∧ (play_callback_off s).mm = (s.mm.send_midi_cc 0xB0 123 0 3).2
       ∧ ∀ k : Nat, is_key_in_matrix (play_callback_off s).matrix k = false) := by
  refine ⟨?_, ?_, ?_⟩
  · intro s
    unfold record_callback_on play_callback_off notifyDrain recBuf
    dsimp only
    refine ⟨?_, ?_, ?_, ?_, ?_⟩ <;>
    · repeat' split
      all_goals rfl
  · intro s hs hp0
    have hfp : s.first_play = true :=
      (reachable_inv9 s hs).playAnchor hp0
    have hfp' := play_callback_on_first_play s hfp
    exact ⟨hfp', fun res tm n => playFrame_first_read _ hfp' res tm n⟩
  · intro s
    refine ⟨rfl, rfl, rfl, ?_⟩
    intro k
    exact is_key_clear_matrix _ k

/-- Witness for C7's amended theorem at the initial state. -/
theorem transport_transition_postconditions_witness :
    (initState 2).play = 0
  ∧ (play_callback_on (initState 2)).first_play = true :=
  ⟨rfl, (transport_transition_postconditions.2.1 (initState 2)
    (Reachable.init 2) rfl).1⟩

/-! ## Claim C2: playback replays in order, loops, and re-anchors -/

theorem nextAux_allFree (l : List Slot) :
    ∀ k : Nat, (∀ x ∈ l, x.send_cc = false) →
      MidiMessenger.nextAux l k = -1 := by
  induction l with
  | nil => intro k _; rfl
  | cons a t ih =>
    intro k h
    have ha : a.send_cc = false := h a (List.mem_cons_self a t)
    simp only [MidiMessenger.nextAux, ha, Bool.false_eq_true, if_false]
    exact ih (k + 1) (fun x hx => h x (List.mem_cons_of_mem a hx))

theorem next_allFree (mm : MidiMessenger) (h : mm.allFree = true) (i : Int) :
    mm.next i = -1 := by
  unfold MidiMessenger.next
  apply nextAux_allFree
  intro x hx
  have hx' : x ∈ mm.slots := List.mem_of_mem_drop hx
  have hfree := (List.all_eq_true.mp h) x hx'
  simpa using hfree

theorem wrap_eq_mod (p N : Nat) (h : p < N) :
    (if p + 1 ≥ N then 0 else p + 1) = (p + 1) % N := by
  split
  · next hge =>
    have he : p + 1 = N := by omega
    rw [he, Nat.mod_self]
  · next hlt =>
    rw [Nat.mod_eq_of_lt (by omega)]

theorem pinv_processFrame (T : List MidiEvent) (hT : T ≠ [])
    (res : Nat → Nat → Bool) (tm n cnt : Nat) (s : XJackState)
    (h : PInv T cnt s) :
    PInv T (cnt + (processFrame res tm n s (-1)).adv.toList.length)
      (processFrame res tm n s (-1)).st
  ∧ (∀ a : PlayAdv, (processFrame res tm n s (-1)).adv = some a →
      a.idx = cnt % T.length)
  ∧ (processFrame res tm n s (-1)).nexti = -1
  ∧ (processFrame res tm n s (-1)).emit = none := by
  obtain ⟨hp, hr, ht, hmm, hphase⟩ := h
  have hlen : 0 < T.length := List.length_pos.mpr hT
  have hlen' : s.takeSeq.length ≠ 0 := by
    rw [ht]
    omega
  unfold processFrame
  dsimp only
  rw [if_neg (show ¬(s.record ≠ 0) from fun hcc => hcc hr)]
  rw [if_neg (show ¬((-1 : Int) ≥ 0) from by decide)]
  rw [if_pos (show s.play ≠ 0 ∧ s.takeSeq.length ≠ 0 from ⟨hp, hlen'⟩)]
  unfold playFrame
  dsimp only
  cases hphase with
  | inl hA =>
    obtain ⟨hfp, hcnt⟩ := hA
    rw [if_pos hfp]
    split
    · refine ⟨⟨hp, hr, ht, hmm, Or.inr ⟨rfl, ?_⟩⟩, ?_, rfl, rfl⟩
      · show (if 0 + 1 ≥ s.takeSeq.length then 0 else 0 + 1) = _
        rw [ht, wrap_eq_mod 0 T.length hlen, hcnt]
        rfl
      · intro a ha
        have hx := Option.some.inj ha
        rw [← hx, hcnt]
        show (0 : Nat) = 0 % T.length
        rw [Nat.zero_mod]
    · refine ⟨⟨hp, hr, ht, hmm, Or.inr ⟨rfl, ?_⟩⟩, ?_, rfl, rfl⟩
      · show (0 : Nat) = (cnt + 0) % T.length
        rw [hcnt, Nat.add_zero, Nat.zero_mod]
      · intro a ha
        exact absurd ha (by simp)
  | inr hB =>
    obtain ⟨hfp, hpos⟩ := hB
    have hcur : s.p < T.length := by
      rw [hpos]
      exact Nat.mod_lt _ hlen
    have hnfp : ¬(s.first_play = true) := by rw [hfp]; exact Bool.false_ne_true
    rw [if_neg hnfp]
    split
    · refine ⟨⟨hp, hr, ht, hmm, Or.inr ⟨hfp, ?_⟩⟩, ?_, rfl, rfl⟩
      · show (if s.p + 1 ≥ s.takeSeq.length then 0 else s.p + 1) = _
        rw [ht, wrap_eq_mod s.p T.length hcur, hpos, Nat.mod_add_mod]
        rfl
      · intro a ha
        have hx := Option.some.inj ha
        rw [← hx]
        exact hpos
    · refine ⟨⟨hp, hr, ht, hmm, Or.inr ⟨hfp, ?_⟩⟩, ?_, rfl, rfl⟩
      · show s.p = (cnt + 0) % T.length
        rw [Nat.add_zero, hpos]
      · intro a ha
        exact absurd ha (by simp)

theorem pinv_processFrames (T : List MidiEvent) (hT : T ≠ [])
    (res : Nat → Nat → Bool) (tm : Nat) :
    ∀ (k n cnt : Nat) (s : XJackState), PInv T cnt s →
      PInv T (cnt + (processFrames res tm k n s (-1)).advs.length)
        (processFrames res tm k n s (-1)).st
    ∧ ∀ (j : Nat) (hj : j < (processFrames res tm k n s (-1)).advs.length),
        ((processFrames res tm k n s (-1)).advs.get ⟨j, hj⟩).idx
          = (cnt + j) % T.length := by
  intro k
  induction k with
  | zero =>
    intro n cnt s h
    refine ⟨by simpa [processFrames] using h, ?_⟩
    intro j hj
    simp [processFrames] at hj
  | succ k ih =>
    intro n cnt s h
    have hf := pinv_processFrame T hT res tm n cnt s h
    simp only [processFrames]
    rw [hf.2.2.1]
    have hrest := ih (n + 1) (cnt + (processFrame res tm n s (-1)).adv.toList.length)
      (processFrame res tm n s (-1)).st hf.1
    cases ha : (processFrame res tm n s (-1)).adv with
    | none =>
      rw [ha] at hrest
      simp only [ha, Option.toList_none, List.nil_append, List.length_nil,
        Nat.add_zero] at hrest ⊢
      exact hrest
    | some a =>
      rw [ha] at hrest
      simp only [ha, Option.toList_some, List.singleton_append,
        List.length_cons, List.length_nil, Nat.zero_add] at hrest ⊢
      refine ⟨?_, ?_⟩
      · rw [show cnt + ((processFrames res tm k (n + 1)
          (processFrame res tm n s (-1)).st (-1)).advs.length + 1)
            = cnt + 1 + (processFrames res tm k (n + 1)
              (processFrame res tm n s (-1)).st (-1)).advs.length from by omega]
        exact hrest.1
      · intro j hj
        cases j with
        | zero =>
          show a.idx = (cnt + 0) % T.length
          rw [Nat.add_zero]
          exact hf.2.1 a ha
        | succ j =>
          have hj' : j < (processFrames res tm k (n + 1)
              (processFrame res tm n s (-1)).st (-1)).advs.length := by
            omega
          have := hrest.2 j hj'
          rw [show cnt + 1 + j = cnt + (j + 1) from by omega] at this
          simpa using this

theorem pinv_runPlay (T : List MidiEvent) (hT : T ≠ []) :
    ∀ (bs : List PlayBlock) (cnt : Nat) (s : XJackState), PInv T cnt s →
      PInv T (cnt + (runPlay bs s).2.length) (runPlay bs s).1
    ∧ ∀ (j : Nat) (hj : j < (runPlay bs s).2.length),
        ((runPlay bs s).2.get ⟨j, hj⟩).idx = (cnt + j) % T.length := by
  intro bs
  induction bs with
  | nil =>
    intro cnt s h
    refine ⟨by simpa [runPlay] using h, ?_⟩
    intro j hj
    simp [runPlay] at hj
  | cons b rest ih =>
    intro cnt s h
    have hnext : s.mm.next (-1) = -1 := next_allFree _ h.2.2.2.1 _
    simp only [runPlay, process_midi_out]
    rw [hnext]
    have hblk := pinv_processFrames T hT b.res b.tm b.nframes 0 cnt s h
    have hrest := ih (cnt + (processFrames b.res b.tm b.nframes 0 s (-1)).advs.length)
      (processFrames b.res b.tm b.nframes 0 s (-1)).st hblk.1
    refine ⟨?_, ?_⟩
    · rw [List.length_append, show cnt + ((processFrames b.res b.tm b.nframes 0 s
        (-1)).advs.length + (runPlay rest (processFrames b.res b.tm b.nframes 0 s
          (-1)).st).2.length) = cnt + (processFrames b.res b.tm b.nframes 0 s
            (-1)).advs.length + (runPlay rest (processFrames b.res b.tm
              b.nframes 0 s (-1)).st).2.length from by omega]
      exact hrest.1
    · intro j hj
      simp only [List.get_eq_getElem]
      by_cases hcase : j < (processFrames b.res b.tm b.nframes 0 s (-1)).advs.length
      · rw [List.getElem_append_left hcase]
        have := hblk.2 j hcase
        simpa using this
      · have hle : (processFrames b.res b.tm b.nframes 0 s (-1)).advs.length ≤ j :=
          Nat.le_of_not_lt hcase
        rw [List.getElem_append_right hle]
        have hj2 : j - (processFrames b.res b.tm b.nframes 0 s (-1)).advs.length
            < (runPlay rest (processFrames b.res b.tm b.nframes 0 s (-1)).st).2.length := by
          rw [List.length_append] at hj
          omega
        have := hrest.2 _ hj2
        simp only [List.get_eq_getElem] at this
        rw [this]
        congr 1
        omega

/-- C2: from an anchored Playing state with non-empty take `T` and an idle
staging table, any sequence of realtime blocks advances the playback
cursor through the take indices 0, 1, ..., N-1, 0, 1, ... (the j-th
advance replays entry j mod N, so after entry N-1 the next advance replays
entry 0 and the cursor never passes the end); after the run the cursor
equals (number of advances) mod N; and every advance re-anchors `start` to
its block's frame time and wraps the cursor exactly as the code's
`p++; if (p >= size) p = 0` does. -/
theorem playback_loops_in_order (T : List MidiEvent) (s : XJackState)
    (bs : List PlayBlock) (hp : s.play ≠ 0) (hr : s.record = 0)
    (hf : s.first_play = true) (ht : s.takeSeq = T) (hT : T ≠ [])
    (hmm : s.mm.allFree = true) :
    (∀ (j : Nat) (hj : j < (runPlay bs s).2.length),
        ((runPlay bs s).2.get ⟨j, hj⟩).idx = j % T.length)
  ∧ ((runPlay bs s).1.first_play = true ∧ (runPlay bs s).2 = [] ∨
     (runPlay bs s).1.first_play = false ∧
       (runPlay bs s).1.p = (runPlay bs s).2.length % T.length)
  ∧ (∀ (res : Nat → Nat → Bool) (tm n : Nat) (t : XJackState) (a : PlayAdv),
       (playFrame res tm n t).adv = some a →
       (playFrame res tm n t).st.startT = tm
       ∧ (playFrame res tm n t).st.p
           = (if a.idx + 1 ≥ t.takeSeq.length then 0 else a.idx + 1)) := by
  have h0 : PInv T 0 s := ⟨hp, hr, ht, hmm, Or.inl ⟨hf, rfl⟩⟩
  have hrun := pinv_runPlay T hT bs 0 s h0
  refine ⟨?_, ?_, ?_⟩
  · intro j hj
    have := hrun.2 j hj
    simpa using this
  · have hph := hrun.1.2.2.2.2
    cases hph with
    | inl hA =>
      left
      refine ⟨hA.1, ?_⟩
      have hz : (runPlay bs s).2.length = 0 := by omega
      exact List.length_eq_zero.mp hz
    | inr hB =>
      right
      refine ⟨hB.1, ?_⟩
      have := hB.2
      simpa using this
  · intro res tm n t a ha
    unfold playFrame at ha ⊢
    dsimp only at ha ⊢
    by_cases hfp : t.first_play = true
    · rw [if_pos hfp] at ha ⊢
      split at ha
      · next hdel =>
        rw [if_pos hdel]
        refine ⟨rfl, ?_⟩
        have hx := Option.some.inj ha
        rw [← hx]
      · simp at ha
    · rw [if_neg hfp] at ha ⊢
      split at ha
      · next hdel =>
        rw [if_pos hdel]
        refine ⟨rfl, ?_⟩
        have hx := Option.some.inj ha
        rw [← hx]
      · simp at ha

theorem playback_loops_in_order_witness :
    playStateC2.play ≠ 0 ∧ takeC2 ≠ [] ∧
    ((runPlay blocksC2 playStateC2).1.first_play = true
       ∧ (runPlay blocksC2 playStateC2).2 = [] ∨
     (runPlay blocksC2 playStateC2).1.first_play = false
       ∧ (runPlay blocksC2 playStateC2).1.p
           = (runPlay blocksC2 playStateC2).2.length % takeC2.length) :=
  ⟨by decide, by decide,
   (playback_loops_in_order takeC2 playStateC2 blocksC2
     (by decide) rfl rfl rfl (by decide) (by decide)).2.1⟩

/-- C6 evaluated at the failing input: at the stop of the one-event second
session, store2 holds the unconsolidated event yet `record_callback`'s
stop branch (`rec.st == &store1 && store2.size()` is false because
`rec.st` still points at store2) selects store1 as the final hand-off
target — the buffer holding data is not the one drained, and the event is
lost. -/
theorem stop_handoff_misses_occupied_buffer :
    scenStopSelect.store2 = [evRec 0]
  ∧ scenStopSelect.recSel = BufSel.one
  ∧ scenStopSelect.takeSeq = []
  ∧ scenStopSelect.handoffLog = [256, 1, 0] := by
  refine ⟨?_, ?_, ?_, ?_⟩
  · rw [scenStopSelect_final]; rfl
  · rw [scenStopSelect_final]; rfl
  · rw [scenStopSelect_final]; rfl
  · rw [scenStopSelect_final]; rfl

end Mamba
